import Mathlib

/-!
Verification of the focalboard webapp fragment: the board-template
selector component (`boardTemplateSelector.tsx`) and the mutation /
undo-redo core it is a client of.  The component's pure logic (template
sorting, combined listing, active-selection derivation, global-template
fetch guard) is embedded directly from the TypeScript source.  The
Entity Store / Command / History / Mutator core is not part of the
source fragment; it is modelled from the specification where a claim
needs it, with each such definition marked `Modelled from the spec:`.
-/

/-- An entity ("block"): a board, template, card or view.  Fields embed
the parts of the webapp `Board` type the fragment reads: `id`,
`workspaceId` (scope, sentinel "0" = global), `createAt` (creation
timestamp), `isTemplate` kind flag, `title` and the property bag. -/
structure Entity where
  id : String
  workspaceId : String
  createAt : Int
  isTemplate : Bool
  title : String
  properties : List (String × String)
deriving Repr, DecidableEq

/-- Stable insertion of an entity into a list already sorted ascending
by `createAt`: the inserted element goes before the first element with
an equal-or-larger timestamp.  Together with `sortTemplates` this is
the stable sort that ECMAScript `Array.prototype.sort` performs with
comparator `(a, b) => a.createAt - b.createAt`. -/
def insertByCreateAt (x : Entity) : List Entity → List Entity
  | [] => [x]
  | y :: ys => if x.createAt ≤ y.createAt then x :: y :: ys else y :: insertByCreateAt x ys

/-- Embeds line 74 of `boardTemplateSelector.tsx`:
`Object.values(unsortedTemplates).sort((a, b) => a.createAt - b.createAt)`.
The input list is the enumeration order of the underlying store record
(`Object.values`); the sort is stable and compares `createAt` only. -/
def sortTemplates (l : List Entity) : List Entity :=
  match l with
  | [] => []
  | x :: xs => insertByCreateAt x (sortTemplates xs)

/-- Embeds line 75 of `boardTemplateSelector.tsx`:
`const allTemplates = globalTemplates.concat(templates)` where
`templates` is the sorted workspace-local list. -/
def allTemplates (globalTemplates unsortedTemplates : List Entity) : List Entity :=
  globalTemplates ++ sortTemplates unsortedTemplates

/-- Embeds line 104 of `boardTemplateSelector.tsx`:
`useState<Board>(allTemplates[0])` — the initial active selection is the
first element of the combined list, or none (`undefined`) if empty. -/
def initialActiveTemplate (globalTemplates unsortedTemplates : List Entity) : Option Entity :=
  (allTemplates globalTemplates unsortedTemplates).head?

/-- Embeds lines 106-110 of `boardTemplateSelector.tsx`, the effect body
that runs on every change of `templates` or `globalTemplates`:
`if (!activeTemplate) { setActiveTemplate(templates.concat(globalTemplates)[0]) }`.
`templates` is the sorted workspace-local list; note the concatenation
order is workspace-local first, and the guard tests only whether the
current selection is unset (falsy), not membership of its id. -/
def recomputeActiveTemplate (active : Option Entity)
    (unsortedTemplates globalTemplates : List Entity) : Option Entity :=
  match active with
  | none => (sortTemplates unsortedTemplates ++ globalTemplates).head?
  | some t => some t

/-- Embeds lines 54-58 of `boardTemplateSelector.tsx`: the effect
dispatches `fetchGlobalTemplates()` exactly when
`octoClient.workspaceId !== '0' && globalTemplates.length === 0`. -/
def shouldFetchGlobalTemplates (workspaceId : String) (globalTemplates : List Entity) : Bool :=
  workspaceId != "0" && globalTemplates.length == 0

/-- Embeds line 98 of `boardTemplateSelector.tsx`: `handleUseTemplate`
passes `activeTemplate.workspaceId === '0'` as the source-is-global
flag of `mutator.addBoardFromTemplate`. -/
def handleUseTemplateIsGlobal (activeTemplate : Entity) : Bool :=
  activeTemplate.workspaceId == "0"

/-- Lexicographic comparison of character lists by code point; the
executable order underlying `strLt`. -/
def charListLt : List Char → List Char → Bool
  | _, [] => false
  | [], _ :: _ => true
  | a :: as, b :: bs =>
    if a.toNat < b.toNat then true
    else if b.toNat < a.toNat then false
    else charListLt as bs

/-- Lexicographic order on strings (by code point), used to keep the
modelled Entity Store in a canonical id-sorted form and to state the
spec's id-lexical tie-break. -/
def strLt (a b : String) : Bool := charListLt a.data b.data

/-- Modelled from the spec: the Entity Store (§4.1), an in-memory
mapping entity id → current snapshot; the mutator/store sources are not
part of this fragment.  Represented as a list kept strictly sorted by
id, the canonical form of a finite mapping. -/
abbrev EntityStore : Type := List Entity

/-- Modelled from the spec: `get(id) → Entity | not-found` (§4.1). -/
def EntityStore.get (id : String) (s : EntityStore) : Option Entity :=
  List.find? (fun e => e.id == id) s

/-- Modelled from the spec: `put(entity)` (§4.1) — upserts, overwriting
any previous value for that id.  Insertion keeps the id-sorted
canonical form of the mapping. -/
def EntityStore.put (e : Entity) : EntityStore → EntityStore
  | [] => [e]
  | x :: xs =>
    if strLt e.id x.id then e :: x :: xs
    else if e.id = x.id then e :: xs
    else x :: EntityStore.put e xs

/-- Modelled from the spec: `remove(id)` (§4.1) — deletes; idempotent
(removing an absent id is a no-op). -/
def EntityStore.remove (id : String) (s : EntityStore) : EntityStore :=
  List.filter (fun e => e.id != id) s

/-- The id-sorted canonical-form invariant of the modelled store. -/
def EntityStore.Canonical (s : EntityStore) : Prop :=
  List.Pairwise (fun a b : Entity => strLt a.id b.id = true) s

/-- Modelled from the spec: `listByKindAndScope(kind, scope)` (§4.1)
restricted to the template kind — entities whose `isTemplate` flag is
set and whose scope matches, ordered by the fragment's sort (line 74:
ascending `createAt`, stable). -/
def listTemplatesByScope (scope : String) (s : EntityStore) : List Entity :=
  sortTemplates (List.filter (fun e => e.isTemplate && e.workspaceId == scope) s)

/-- The combined template display: global templates ("0" scope) before
workspace-local ones, as `boardTemplateSelector.tsx` line 75 builds it
from the two store-derived lists. -/
def combinedListing (workspace : String) (s : EntityStore) : List Entity :=
  listTemplatesByScope "0" s ++ listTemplatesByScope workspace s

/-- Modelled from the spec: the error kinds of §7. -/
inductive MutErr where
  | notFound
  | mutationFailed
  | emptyHistory
  | desynchronized
deriving Repr, DecidableEq

/-- Modelled from the spec: a Command (§2, §3) — an immutable
description of one user-intended mutation holding a forward and a
reverse action.  The fragment's verbs produce exactly two shapes:
deletion of an entity (snapshot retained for the reverse action) and
creation of a new entity (reverse deletes it).  A display label is
carried as §3 requires. -/
inductive Command where
  | deleteEntity (label : String) (snapshot : Entity)
  | addEntity (label : String) (entity : Entity)
deriving Repr, DecidableEq

/-- Modelled from the spec: the local-store effect of a Command's
forward action (§4.3). -/
def Command.applyForward : Command → EntityStore → EntityStore
  | .deleteEntity _ snap, s => EntityStore.remove snap.id s
  | .addEntity _ e, s => EntityStore.put e s

/-- Modelled from the spec: the local-store effect of a Command's
reverse action (§4.3) — re-creates the pre-delete snapshot, or deletes
the created entity. -/
def Command.applyReverse : Command → EntityStore → EntityStore
  | .deleteEntity _ snap, s => EntityStore.put snap s
  | .addEntity _ e, s => EntityStore.remove e.id s

/-- Validity of a command at the store it is applied to: a deletion
carries the snapshot actually present, a creation uses a fresh id (§3:
ids are unique; the snapshot is taken, not regenerated). -/
def Command.valid (s : EntityStore) : Command → Bool
  | .deleteEntity _ snap => EntityStore.get snap.id s == some snap
  | .addEntity _ e => (EntityStore.get e.id s).isNone

/-- Modelled from the spec: the two-stack Undo/Redo History (§2, §4.2). -/
structure History where
  undoStack : List Command
  redoStack : List Command
deriving Repr, DecidableEq

/-- The mutation core's state: the Entity Store plus the History. -/
structure MState where
  store : EntityStore
  history : History
deriving DecidableEq

/-- Modelled from the spec: `History.execute(command)` (§4.2) — runs the
forward action; on success pushes the command to the undo-stack and
clears the redo-stack; on failure (the remote confirmation is rejected,
modelled by the `remoteOk` flag) the command is discarded, both stacks
are unchanged, the local store is rolled back to the pre-attempt
snapshot, and `MutationFailed` propagates. -/
def executeCmd (c : Command) (remoteOk : Bool) (st : MState) : MState × Option MutErr :=
  if remoteOk then
    ({ store := c.applyForward st.store,
       history := { undoStack := c :: st.history.undoStack, redoStack := [] } }, none)
  else
    (st, some MutErr.mutationFailed)

/-- Modelled from the spec: `History.undo()` (§4.2) — `EmptyHistory` on
an empty undo-stack with no state change; otherwise pops the top
command, runs its reverse action and pushes it to the redo-stack; a
failed reverse drops the command from both stacks, leaves the store at
the last known-good state and reports `Desynchronized`. -/
def undo (remoteOk : Bool) (st : MState) : MState × Option MutErr :=
  match st.history.undoStack with
  | [] => (st, some MutErr.emptyHistory)
  | c :: rest =>
    if remoteOk then
      ({ store := c.applyReverse st.store,
         history := { undoStack := rest, redoStack := c :: st.history.redoStack } }, none)
    else
      ({ st with history := { undoStack := rest, redoStack := st.history.redoStack } },
       some MutErr.desynchronized)

/-- Modelled from the spec: `History.redo()` (§4.2) — symmetric to
`undo`. -/
def redo (remoteOk : Bool) (st : MState) : MState × Option MutErr :=
  match st.history.redoStack with
  | [] => (st, some MutErr.emptyHistory)
  | c :: rest =>
    if remoteOk then
      ({ store := c.applyForward st.store,
         history := { undoStack := c :: st.history.undoStack, redoStack := rest } }, none)
    else
      ({ st with history := { undoStack := st.history.undoStack, redoStack := rest } },
       some MutErr.desynchronized)

/-- Modelled from the spec: the `deleteEntity` verb (§4.3,
`mutator.deleteBlock`) — builds one deletion Command from the present
snapshot and executes it through the History; a non-existent id is
surfaced as `NotFound` without touching the History (§8). -/
def deleteEntityVerb (id label : String) (remoteOk : Bool) (st : MState) :
    MState × Option MutErr :=
  match EntityStore.get id st.store with
  | none => (st, some MutErr.notFound)
  | some snap => executeCmd (Command.deleteEntity label snap) remoteOk st

/-- Modelled from the spec: the clone built by `addEntityFromTemplate`
(§4.3) — the template's property bag copied into a new entity with
fresh id, current timestamp, and scope set to the caller's
workspace. -/
def cloneFromTemplate (tmpl : Entity) (callerWorkspace freshId : String) (now : Int) : Entity :=
  { id := freshId, workspaceId := callerWorkspace, createAt := now,
    isTemplate := false, title := tmpl.title, properties := tmpl.properties }

/-- Modelled from the spec: the `addEntityFromTemplate` verb (§4.3,
`mutator.addBoardFromTemplate`) — clones the template's property bag
into a new entity with fresh id and current timestamp, scope the
caller's workspace, executes the creation Command, and on success
invokes the navigation callback with the new id (the returned list
records the ids the navigation callback was invoked with). -/
def addBoardFromTemplate (templateId : String) (_sourceIsGlobal : Bool)
    (callerWorkspace freshId : String) (now : Int) (remoteOk : Bool)
    (st : MState) : MState × Option MutErr × List String :=
  match EntityStore.get templateId st.store with
  | none => (st, some MutErr.notFound, [])
  | some tmpl =>
    match executeCmd (Command.addEntity "add board from template"
        (cloneFromTemplate tmpl callerWorkspace freshId now)) remoteOk st with
    | (st2, none) => (st2, none, [freshId])
    | (st2, some e) => (st2, some e, [])

/-- Modelled from the spec: the `addEmptyEntity` verb (§4.3,
`mutator.addEmptyBoard`) — creates a new non-template entity with a
default property bag; on success invokes the navigation callback with
the new id. -/
def addEmptyBoard (callerWorkspace freshId : String) (now : Int) (remoteOk : Bool)
    (st : MState) : MState × Option MutErr × List String :=
  let newEntity : Entity :=
    { id := freshId, workspaceId := callerWorkspace, createAt := now,
      isTemplate := false, title := "", properties := [] }
  match executeCmd (Command.addEntity "add board" newEntity) remoteOk st with
  | (st2, none) => (st2, none, [freshId])
  | (st2, some e) => (st2, some e, [])

/-- Executes a sequence of commands (all remote calls succeeding). -/
def execSeq : List Command → MState → MState
  | [], st => st
  | c :: cs, st => execSeq cs (executeCmd c true st).1

/-- `n` undos in a row (all remote calls succeeding); the `n`-th undo is
performed last, on the result of the first `n - 1`. -/
def undoN : Nat → MState → MState
  | 0, st => st
  | n + 1, st => (undo true (undoN n st)).1

/-- Each command of the sequence is valid at the store state it is
applied to. -/
def SeqValid : List Command → EntityStore → Bool
  | [], _ => true
  | c :: cs, s => c.valid s && SeqValid cs (c.applyForward s)

theorem Char.toNat_injective {a b : Char} (h : a.toNat = b.toNat) : a = b :=
  Char.eq_of_val_eq (UInt32.toNat.inj h)

theorem charListLt_irrefl : ∀ l : List Char, charListLt l l = false
  | [] => rfl
  | a :: as => by
    rw [charListLt]
    simp [charListLt_irrefl as]

theorem charListLt_asymm : ∀ {l₁ l₂ : List Char},
    charListLt l₁ l₂ = true → charListLt l₂ l₁ = false
  | [], [], h => by cases h
  | [], _ :: _, _ => rfl
  | _ :: _, [], h => by cases h
  | a :: as, b :: bs, h => by
    rw [charListLt] at h ⊢
    by_cases hab : a.toNat < b.toNat
    · have hba : ¬ b.toNat < a.toNat := by omega
      simp [hab, hba]
    · by_cases hba : b.toNat < a.toNat
      · simp [hab, hba] at h
      · simp [hab, hba] at h ⊢
        exact charListLt_asymm h

theorem charListLt_trans : ∀ {l₁ l₂ l₃ : List Char},
    charListLt l₁ l₂ = true → charListLt l₂ l₃ = true → charListLt l₁ l₃ = true
  | [], _, _ :: _, _, _ => rfl
  | [], [], [], h₁, _ => by cases h₁
  | [], _ :: _, [], _, h₂ => by cases h₂
  | _ :: _, [], _, h₁, _ => by cases h₁
  | _ :: _, _ :: _, [], _, h₂ => by cases h₂
  | a :: as, b :: bs, c :: cs, h₁, h₂ => by
    rw [charListLt] at h₁ h₂ ⊢
    by_cases hab : a.toNat < b.toNat
    · by_cases hbc : b.toNat < c.toNat
      · simp [show a.toNat < c.toNat by omega]
      · by_cases hcb : c.toNat < b.toNat
        · simp [hbc, hcb] at h₂
        · simp [show a.toNat < c.toNat by omega]
    · by_cases hba : b.toNat < a.toNat
      · simp [hab, hba] at h₁
      · simp [hab, hba] at h₁
        by_cases hbc : b.toNat < c.toNat
        · simp [show a.toNat < c.toNat by omega]
        · by_cases hcb : c.toNat < b.toNat
          · simp [hbc, hcb] at h₂
          · simp [hbc, hcb] at h₂
            have hac : ¬ a.toNat < c.toNat := by omega
            have hca : ¬ c.toNat < a.toNat := by omega
            simp [hac, hca]
            exact charListLt_trans h₁ h₂

theorem charListLt_total : ∀ {l₁ l₂ : List Char},
    charListLt l₁ l₂ = false → charListLt l₂ l₁ = false → l₁ = l₂
  | [], [], _, _ => rfl
  | [], _ :: _, h₁, _ => by cases h₁
  | _ :: _, [], _, h₂ => by cases h₂
  | a :: as, b :: bs, h₁, h₂ => by
    rw [charListLt] at h₁ h₂
    by_cases hab : a.toNat < b.toNat
    · simp [hab] at h₁
    · by_cases hba : b.toNat < a.toNat
      · simp [hab, hba] at h₂
      · simp [hab, hba] at h₁ h₂
        have hchar : a = b := Char.toNat_injective (by omega)
        rw [hchar, charListLt_total h₁ h₂]

theorem strLt_irrefl (a : String) : strLt a a = false :=
  charListLt_irrefl a.data

theorem strLt_asymm {a b : String} (h : strLt a b = true) : strLt b a = false :=
  charListLt_asymm h

theorem strLt_trans {a b c : String} (h₁ : strLt a b = true) (h₂ : strLt b c = true) :
    strLt a c = true :=
  charListLt_trans h₁ h₂

theorem strLt_total {a b : String} (h₁ : strLt a b = false) (h₂ : strLt b a = false) :
    a = b := by
  have hd : a.data = b.data := charListLt_total h₁ h₂
  cases a
  cases b
  exact congrArg String.mk hd

theorem strLt_true_of_ne {a b : String} (hne : a ≠ b) (h : strLt a b = false) :
    strLt b a = true := by
  by_cases hba : strLt b a = true
  · exact hba
  · exact absurd (strLt_total h (by simpa using hba)) hne

theorem strLt_ne {a b : String} (h : strLt a b = true) : a ≠ b := by
  intro he
  rw [he, strLt_irrefl] at h
  cases h

theorem EntityStore.get_id {id : String} {s : EntityStore} {e : Entity}
    (h : EntityStore.get id s = some e) : e.id = id := by
  have := List.find?_some h
  simpa using this

theorem EntityStore.mem_of_get {id : String} {s : EntityStore} {e : Entity}
    (h : EntityStore.get id s = some e) : e ∈ s :=
  List.mem_of_find?_eq_some h

theorem EntityStore.get_none {id : String} {s : EntityStore}
    (h : EntityStore.get id s = none) : ∀ e ∈ s, e.id ≠ id := by
  intro e he
  have := List.find?_eq_none.mp h e he
  simpa using this

theorem EntityStore.remove_eq_self {id : String} {s : EntityStore}
    (h : ∀ e ∈ s, e.id ≠ id) : EntityStore.remove id s = s := by
  rw [EntityStore.remove]
  apply List.filter_eq_self.mpr
  intro e he
  simpa using h e he

theorem EntityStore.remove_cons_ne {id : String} {x : Entity} {l : EntityStore}
    (h : x.id ≠ id) :
    EntityStore.remove id (x :: l) = x :: EntityStore.remove id l := by
  rw [EntityStore.remove, EntityStore.remove, List.filter_cons_of_pos (by simpa using h)]

theorem EntityStore.remove_cons_eq {id : String} {x : Entity} {l : EntityStore}
    (h : x.id = id) :
    EntityStore.remove id (x :: l) = EntityStore.remove id l := by
  rw [EntityStore.remove, EntityStore.remove, List.filter_cons_of_neg (by simp [h])]

theorem EntityStore.put_head {e : Entity} {s : EntityStore}
    (h : ∀ y ∈ s, strLt e.id y.id = true) : EntityStore.put e s = e :: s := by
  cases s with
  | nil => rfl
  | cons x xs =>
    rw [EntityStore.put, if_pos (h x (by simp))]

theorem EntityStore.remove_put {e : Entity} {s : EntityStore}
    (h : EntityStore.get e.id s = none) :
    EntityStore.remove e.id (EntityStore.put e s) = s := by
  induction s with
  | nil =>
    rw [EntityStore.put, EntityStore.remove]
    simp
  | cons x xs ih =>
    have hx : x.id ≠ e.id := EntityStore.get_none h x (by simp)
    have hxs : EntityStore.get e.id xs = none := by
      rw [EntityStore.get]
      apply List.find?_eq_none.mpr
      intro y hy
      simpa using EntityStore.get_none h y (by simp [hy])
    rw [EntityStore.put]
    by_cases h1 : strLt e.id x.id = true
    · rw [if_pos h1, EntityStore.remove_cons_eq rfl, EntityStore.remove_cons_ne hx,
        EntityStore.remove_eq_self (EntityStore.get_none hxs)]
    · rw [if_neg h1]
      by_cases h2 : e.id = x.id
      · exact absurd h2.symm hx
      · rw [if_neg h2, EntityStore.remove_cons_ne hx, ih hxs]

theorem EntityStore.put_remove {e : Entity} {s : EntityStore}
    (hcan : EntityStore.Canonical s) (h : EntityStore.get e.id s = some e) :
    EntityStore.put e (EntityStore.remove e.id s) = s := by
  induction s with
  | nil => cases h
  | cons x xs ih =>
    rw [EntityStore.Canonical, List.pairwise_cons] at hcan
    obtain ⟨hx, hc⟩ := hcan
    by_cases hxe : x.id = e.id
    · have hex : x = e := by
        rw [EntityStore.get, List.find?_cons_of_pos _ (by simpa using hxe)] at h
        exact Option.some.inj h
      subst hex
      rw [EntityStore.remove_cons_eq rfl]
      have hids : ∀ y ∈ xs, y.id ≠ x.id := by
        intro y hy heq
        have hlt := hx y hy
        rw [heq, strLt_irrefl] at hlt
        cases hlt
      rw [EntityStore.remove_eq_self hids]
      exact EntityStore.put_head hx
    · have hgxs : EntityStore.get e.id xs = some e := by
        rw [EntityStore.get, List.find?_cons_of_neg _ (by simpa using hxe)] at h
        exact h
      have hmem : e ∈ xs := EntityStore.mem_of_get hgxs
      have hlt : strLt x.id e.id = true := hx e hmem
      rw [EntityStore.remove_cons_ne hxe, EntityStore.put,
        if_neg (by simp [strLt_asymm hlt]),
        if_neg (fun heq => hxe heq.symm),
        ih hc hgxs]

theorem EntityStore.mem_put {e y : Entity} {s : EntityStore}
    (h : y ∈ EntityStore.put e s) : y = e ∨ y ∈ s := by
  induction s with
  | nil =>
    rw [EntityStore.put] at h
    simp at h
    exact Or.inl h
  | cons x xs ih =>
    rw [EntityStore.put] at h
    by_cases h1 : strLt e.id x.id = true
    · rw [if_pos h1] at h
      rcases List.mem_cons.mp h with h | h
      · exact Or.inl h
      · exact Or.inr h
    · rw [if_neg h1] at h
      by_cases h2 : e.id = x.id
      · rw [if_pos h2] at h
        rcases List.mem_cons.mp h with h | h
        · exact Or.inl h
        · exact Or.inr (List.mem_cons_of_mem _ h)
      · rw [if_neg h2] at h
        rcases List.mem_cons.mp h with h | h
        · exact Or.inr (by simp [h])
        · rcases ih h with h | h
          · exact Or.inl h
          · exact Or.inr (List.mem_cons_of_mem _ h)

theorem EntityStore.canonical_put {e : Entity} {s : EntityStore}
    (hcan : EntityStore.Canonical s) :
    EntityStore.Canonical (EntityStore.put e s) := by
  induction s with
  | nil =>
    rw [EntityStore.put, EntityStore.Canonical]
    simp
  | cons x xs ih =>
    rw [EntityStore.Canonical, List.pairwise_cons] at hcan
    obtain ⟨hx, hc⟩ := hcan
    rw [EntityStore.put]
    by_cases h1 : strLt e.id x.id = true
    · rw [if_pos h1, EntityStore.Canonical, List.pairwise_cons]
      constructor
      · intro y hy
        rcases List.mem_cons.mp hy with h | h
        · rw [h]
          exact h1
        · exact strLt_trans h1 (hx y h)
      · rw [List.pairwise_cons]
        exact ⟨hx, hc⟩
    · rw [if_neg h1]
      by_cases h2 : e.id = x.id
      · rw [if_pos h2, EntityStore.Canonical, List.pairwise_cons]
        refine ⟨fun y hy => ?_, hc⟩
        rw [h2]
        exact hx y hy
      · rw [if_neg h2, EntityStore.Canonical, List.pairwise_cons]
        have h1f : strLt e.id x.id = false := by simpa using h1
        refine ⟨fun y hy => ?_, ih hc⟩
        rcases EntityStore.mem_put hy with h | h
        · rw [h]
          exact strLt_true_of_ne h2 h1f
        · exact hx y h

theorem EntityStore.canonical_remove {id : String} {s : EntityStore}
    (hcan : EntityStore.Canonical s) :
    EntityStore.Canonical (EntityStore.remove id s) :=
  List.Pairwise.sublist (List.filter_sublist s) hcan

theorem EntityStore.get_put (e : Entity) (s : EntityStore) :
    EntityStore.get e.id (EntityStore.put e s) = some e := by
  induction s with
  | nil =>
    rw [EntityStore.put, EntityStore.get]
    simp
  | cons x xs ih =>
    rw [EntityStore.put]
    by_cases h1 : strLt e.id x.id = true
    · rw [if_pos h1, EntityStore.get, List.find?_cons_of_pos _ (by simp)]
    · rw [if_neg h1]
      by_cases h2 : e.id = x.id
      · rw [if_pos h2, EntityStore.get, List.find?_cons_of_pos _ (by simp)]
      · rw [if_neg h2, EntityStore.get,
          List.find?_cons_of_neg _ (by simp; exact fun h => h2 h.symm)]
        exact ih

theorem Command.reverse_forward {c : Command} {s : EntityStore}
    (hcan : EntityStore.Canonical s) (hv : c.valid s = true) :
    c.applyReverse (c.applyForward s) = s := by
  cases c with
  | deleteEntity label snap =>
    rw [Command.valid] at hv
    have h : EntityStore.get snap.id s = some snap := by simpa using hv
    rw [Command.applyForward, Command.applyReverse]
    exact EntityStore.put_remove hcan h
  | addEntity label e =>
    rw [Command.valid] at hv
    have h : EntityStore.get e.id s = none := by
      simpa [Option.isNone_iff_eq_none] using hv
    rw [Command.applyForward, Command.applyReverse]
    exact EntityStore.remove_put h

theorem Command.canonical_forward (c : Command) {s : EntityStore}
    (hcan : EntityStore.Canonical s) :
    EntityStore.Canonical (c.applyForward s) := by
  cases c with
  | deleteEntity label snap =>
    rw [Command.applyForward]
    exact EntityStore.canonical_remove hcan
  | addEntity label e =>
    rw [Command.applyForward]
    exact EntityStore.canonical_put hcan

theorem roundTripAux : ∀ (cmds : List Command) (s : EntityStore) (u r : List Command),
    EntityStore.Canonical s → SeqValid cmds s = true →
    (undoN cmds.length (execSeq cmds ⟨s, ⟨u, r⟩⟩)).store = s ∧
    (undoN cmds.length (execSeq cmds ⟨s, ⟨u, r⟩⟩)).history.undoStack = u := by
  intro cmds
  induction cmds with
  | nil => exact fun s u r _ _ => ⟨rfl, rfl⟩
  | cons c cs ih =>
    intro s u r hcan hv
    rw [SeqValid, Bool.and_eq_true] at hv
    have hstep : execSeq (c :: cs) ⟨s, ⟨u, r⟩⟩ =
        execSeq cs ⟨c.applyForward s, ⟨c :: u, []⟩⟩ := rfl
    have ihres := ih (c.applyForward s) (c :: u) [] (c.canonical_forward hcan) hv.2
    rw [List.length_cons, undoN, hstep]
    obtain ⟨hs', hu'⟩ := ihres
    rcases hX : undoN cs.length (execSeq cs ⟨c.applyForward s, ⟨c :: u, []⟩⟩) with
      ⟨store', us', rs'⟩
    rw [hX] at hs' hu'
    simp only at hs' hu'
    subst hu'
    rw [show undo true ⟨store', ⟨c :: u, rs'⟩⟩ =
        (⟨c.applyReverse store', ⟨u, c :: rs'⟩⟩, none) from rfl]
    simp only
    rw [hs']
    exact ⟨Command.reverse_forward hcan hv.1, trivial⟩

theorem insertByCreateAt_perm (x : Entity) (l : List Entity) :
    List.Perm (insertByCreateAt x l) (x :: l) := by
  induction l with
  | nil => exact List.Perm.refl _
  | cons y ys ih =>
    rw [insertByCreateAt]
    by_cases h : x.createAt ≤ y.createAt
    · rw [if_pos h]
    · rw [if_neg h]
      exact (List.Perm.cons y ih).trans (List.Perm.swap x y ys)

theorem sortTemplates_perm (l : List Entity) : List.Perm (sortTemplates l) l := by
  induction l with
  | nil => exact List.Perm.refl _
  | cons x xs ih =>
    rw [sortTemplates]
    exact (insertByCreateAt_perm x (sortTemplates xs)).trans (List.Perm.cons x ih)

theorem insertByCreateAt_pairwise {x : Entity} {l : List Entity}
    (h : List.Pairwise (fun a b : Entity => a.createAt ≤ b.createAt) l) :
    List.Pairwise (fun a b : Entity => a.createAt ≤ b.createAt) (insertByCreateAt x l) := by
  induction l with
  | nil => simp [insertByCreateAt]
  | cons y ys ih =>
    rw [List.pairwise_cons] at h
    obtain ⟨hy, hys⟩ := h
    rw [insertByCreateAt]
    by_cases hle : x.createAt ≤ y.createAt
    · rw [if_pos hle, List.pairwise_cons]
      refine ⟨fun z hz => ?_, List.pairwise_cons.mpr ⟨hy, hys⟩⟩
      rcases List.mem_cons.mp hz with h | h
      · rw [h]
        exact hle
      · exact le_trans hle (hy z h)
    · rw [if_neg hle, List.pairwise_cons]
      refine ⟨fun z hz => ?_, ih hys⟩
      rcases List.mem_cons.mp ((insertByCreateAt_perm x ys).mem_iff.mp hz) with h | h
      · rw [h]
        exact le_of_not_le hle
      · exact hy z h

theorem sortTemplates_pairwise (l : List Entity) :
    List.Pairwise (fun a b : Entity => a.createAt ≤ b.createAt) (sortTemplates l) := by
  induction l with
  | nil => exact List.Pairwise.nil
  | cons x xs ih =>
    rw [sortTemplates]
    exact insertByCreateAt_pairwise ih

theorem filter_insertByCreateAt_pos {x : Entity} {c : Int} (hx : x.createAt = c) :
    ∀ l : List Entity,
      List.filter (fun e => e.createAt == c) (insertByCreateAt x l) =
        x :: List.filter (fun e => e.createAt == c) l
  | [] => by simp [insertByCreateAt, hx]
  | y :: ys => by
    rw [insertByCreateAt]
    by_cases hle : x.createAt ≤ y.createAt
    · rw [if_pos hle, List.filter_cons_of_pos (by simp [hx])]
    · rw [if_neg hle]
      have hy : ¬(y.createAt = c) := by omega
      rw [List.filter_cons_of_neg (by simp [hy]), List.filter_cons_of_neg (by simp [hy])]
      exact filter_insertByCreateAt_pos hx ys

theorem filter_insertByCreateAt_neg {x : Entity} {c : Int} (hx : ¬(x.createAt = c)) :
    ∀ l : List Entity,
      List.filter (fun e => e.createAt == c) (insertByCreateAt x l) =
        List.filter (fun e => e.createAt == c) l
  | [] => by simp [insertByCreateAt, hx]
  | y :: ys => by
    rw [insertByCreateAt]
    by_cases hle : x.createAt ≤ y.createAt
    · rw [if_pos hle, List.filter_cons_of_neg (by simp [hx])]
    · rw [if_neg hle]
      by_cases hy : y.createAt = c
      · rw [List.filter_cons_of_pos (by simp [hy]), List.filter_cons_of_pos (by simp [hy]),
          filter_insertByCreateAt_neg hx ys]
      · rw [List.filter_cons_of_neg (by simp [hy]), List.filter_cons_of_neg (by simp [hy]),
          filter_insertByCreateAt_neg hx ys]

theorem sortTemplates_stable (c : Int) : ∀ l : List Entity,
    List.filter (fun e => e.createAt == c) (sortTemplates l) =
      List.filter (fun e => e.createAt == c) l
  | [] => rfl
  | x :: xs => by
    rw [sortTemplates]
    by_cases hx : x.createAt = c
    · rw [filter_insertByCreateAt_pos hx, sortTemplates_stable c xs,
        List.filter_cons_of_pos (by simp [hx])]
    · rw [filter_insertByCreateAt_neg hx, sortTemplates_stable c xs,
        List.filter_cons_of_neg (by simp [hx])]

theorem sortTemplates_eq_nil {l : List Entity} : sortTemplates l = [] ↔ l = [] := by
  constructor
  · intro h
    have hp := sortTemplates_perm l
    rw [h] at hp
    exact (hp.symm).eq_nil
  · intro h
    rw [h]
    rfl

/-- Concrete global template G1 of the spec's scenario (scope "0",
creation timestamp 50). -/
def gtplG1 : Entity :=
  { id := "g1", workspaceId := "0", createAt := 50, isTemplate := true,
    title := "G1", properties := [("p", "g")] }

/-- Concrete workspace-local template T1 of the spec's scenario
(timestamp 100). -/
def tplT1 : Entity :=
  { id := "t1", workspaceId := "w", createAt := 100, isTemplate := true,
    title := "T1", properties := [("p", "1")] }

/-- Concrete workspace-local template T2 of the spec's scenario
(timestamp 200). -/
def tplT2 : Entity :=
  { id := "t2", workspaceId := "w", createAt := 200, isTemplate := true,
    title := "T2", properties := [("p", "2")] }

/-- A template that has been deleted from every list, kept as a stale
active selection. -/
def tplX : Entity :=
  { id := "x", workspaceId := "w", createAt := 300, isTemplate := true,
    title := "X", properties := [] }

/-- Equal-timestamp entity with id "a" for the tie-break analysis. -/
def entA : Entity :=
  { id := "a", workspaceId := "w", createAt := 5, isTemplate := true,
    title := "A", properties := [] }

/-- Equal-timestamp entity with id "b" for the tie-break analysis. -/
def entB : Entity :=
  { id := "b", workspaceId := "w", createAt := 5, isTemplate := true,
    title := "B", properties := [] }

/-- The spec's scenario state: store [G1, T1, T2], empty history. -/
def scenarioState : MState :=
  { store := [gtplG1, tplT1, tplT2], history := { undoStack := [], redoStack := [] } }

/-- Claim C1 counterexample: with the active selection holding deleted
template X (id "x" absent from the combined sequence [T1]), the
recomputation effect of lines 106-110 leaves the selection as X instead
of recomputing it to the first element of the combined sequence. -/
theorem spec_C1_counterexample :
    tplX.id ∉ (allTemplates [] [tplT1]).map Entity.id
    ∧ recomputeActiveTemplate (some tplX) [tplT1] [] = some tplX
    ∧ recomputeActiveTemplate (some tplX) [tplT1] [] ≠ (allTemplates [] [tplT1]).head?
    ∧ recomputeActiveTemplate (some tplX) [tplT1] [] ≠ none := by
  decide

/-- Claim C1 (amended): the effect body recomputes the selection only
when it is unset (none); a set selection is retained unchanged even
when its id is no longer present in the template sequences.  When it is
unset it becomes the first element of the workspace templates followed
by the global templates, and "none" exactly when both sequences are
empty. -/
theorem spec_C1 : ∀ (ts gs : List Entity) (t : Entity),
    recomputeActiveTemplate (some t) ts gs = some t
    ∧ recomputeActiveTemplate none ts gs = (sortTemplates ts ++ gs).head?
    ∧ (recomputeActiveTemplate none ts gs = none ↔ ts = [] ∧ gs = []) := by
  intro ts gs t
  refine ⟨rfl, rfl, ?_⟩
  rw [recomputeActiveTemplate, List.head?_eq_none_iff, List.append_eq_nil,
    sortTemplates_eq_nil]

/-- Claim C1 witness: the amended statement at concrete inputs. -/
theorem spec_C1_witness :
    recomputeActiveTemplate (some tplX) [tplT1] [tplT2] = some tplX
    ∧ recomputeActiveTemplate none [] [] = none :=
  ⟨(spec_C1 [tplT1] [tplT2] tplX).1, (spec_C1 [] [] tplX).2.2.mpr ⟨rfl, rfl⟩⟩

/-- Claim C2 counterexample: the default selection is the head of
globals ++ locals (G1), but the recomputation of lines 106-110 yields
the head of locals ++ globals (T1), not the first element of the
combined sequence in which global templates precede workspace-local
ones. -/
theorem spec_C2_counterexample :
    initialActiveTemplate [gtplG1] [tplT1] = some gtplG1
    ∧ recomputeActiveTemplate none [tplT1] [gtplG1] = some tplT1
    ∧ (allTemplates [gtplG1] [tplT1]).head? = some gtplG1
    ∧ recomputeActiveTemplate none [tplT1] [gtplG1] ≠ (allTemplates [gtplG1] [tplT1]).head? := by
  decide

/-- Claim C2 (amended): the default selection is the first element of
the combined sequence with global templates first (or none if empty);
the recomputation, however, takes the first element of the workspace
templates followed by the global templates (or none if both are
empty). -/
theorem spec_C2 : ∀ (gs ts : List Entity) (g : Entity),
    initialActiveTemplate (g :: gs) ts = some g
    ∧ initialActiveTemplate [] ts = (sortTemplates ts).head?
    ∧ recomputeActiveTemplate none ts gs = (sortTemplates ts ++ gs).head?
    ∧ (initialActiveTemplate gs ts = none ↔ gs = [] ∧ ts = []) := by
  intro gs ts g
  refine ⟨rfl, ?_, rfl, ?_⟩
  · rw [initialActiveTemplate, allTemplates, List.nil_append]
  · rw [initialActiveTemplate, allTemplates, List.head?_eq_none_iff, List.append_eq_nil,
      sortTemplates_eq_nil]

/-- Claim C2 witness: the amended statement at concrete inputs. -/
theorem spec_C2_witness :
    initialActiveTemplate [gtplG1, tplT2] [tplT1] = some gtplG1
    ∧ initialActiveTemplate [] [] = none :=
  ⟨(spec_C2 [tplT2] [tplT1] gtplG1).1, (spec_C2 [] [] gtplG1).2.2.2.mpr ⟨rfl, rfl⟩⟩

/-- Claim C3: in the combined listing the global templates all come
first, in their given order, followed by the workspace-local templates
sorted ascending by creation timestamp (a permutation of the input);
concretely, globals [G1] with locals enumerated [T2, T1] display as
[G1, T1, T2]. -/
theorem spec_C3 : ∀ (gs ts : List Entity),
    (allTemplates gs ts).take gs.length = gs
    ∧ (allTemplates gs ts).drop gs.length = sortTemplates ts
    ∧ List.Pairwise (fun a b : Entity => a.createAt ≤ b.createAt) (sortTemplates ts)
    ∧ List.Perm (sortTemplates ts) ts
    ∧ allTemplates [gtplG1] [tplT2, tplT1] = [gtplG1, tplT1, tplT2] := by
  intro gs ts
  exact ⟨List.take_left gs (sortTemplates ts), List.drop_left gs (sortTemplates ts),
    sortTemplates_pairwise ts, sortTemplates_perm ts, by decide⟩

/-- Claim C4 counterexample: two entities with equal creation
timestamps and ids "a", "b".  The listing sort of line 74 has no
id-lexical tie-break: enumerations [B, A] and [A, B] of the same set of
entities sort to different sequences, and the [B, A] enumeration is not
in id-lexical order although "a" is lexically before "b". -/
theorem spec_C4_counterexample :
    sortTemplates [entB, entA] = [entB, entA]
    ∧ sortTemplates [entA, entB] = [entA, entB]
    ∧ entA.createAt = entB.createAt
    ∧ strLt entA.id entB.id = true
    ∧ List.Perm [entB, entA] [entA, entB]
    ∧ sortTemplates [entB, entA] ≠ sortTemplates [entA, entB] := by
  refine ⟨by decide, by decide, by decide, by decide, List.Perm.swap entA entB [], by decide⟩

/-- Claim C4 (amended): the listing sort is ascending by creation
timestamp and is stable — entities with equal timestamps keep the
enumeration order of the underlying mapping (for every timestamp value,
filtering the sorted list to that timestamp equals filtering the
input), so the listing is deterministic for a fixed enumeration order;
there is no id-lexical tie-break. -/
theorem spec_C4 : ∀ (l : List Entity),
    List.Pairwise (fun a b : Entity => a.createAt ≤ b.createAt) (sortTemplates l)
    ∧ List.Perm (sortTemplates l) l
    ∧ ∀ c : Int, List.filter (fun e => e.createAt == c) (sortTemplates l) =
        List.filter (fun e => e.createAt == c) l :=
  fun l => ⟨sortTemplates_pairwise l, sortTemplates_perm l, fun c => sortTemplates_stable c l⟩

/-- Claim C5: the round-trip law — for every valid command sequence
executed against a canonical store (all remote calls succeeding),
performing the sequence and then as many undos returns the Entity Store
to its initial state, and therefore every template listing (ordering
included) is restored. -/
theorem spec_C5 : ∀ (cmds : List Command) (s : EntityStore) (u r : List Command) (w : String),
    EntityStore.Canonical s → SeqValid cmds s = true →
    (undoN cmds.length (execSeq cmds ⟨s, ⟨u, r⟩⟩)).store = s
    ∧ combinedListing w ((undoN cmds.length (execSeq cmds ⟨s, ⟨u, r⟩⟩)).store) =
        combinedListing w s := by
  intro cmds s u r w hcan hv
  have h := roundTripAux cmds s u r hcan hv
  exact ⟨h.1, by rw [h.1]⟩

/-- Claim C5 witness: deleting T1 from the scenario store [G1, T1, T2]
and undoing restores the store, and the combined listing is again
[G1, T1, T2] with T1's original id and timestamp. -/
theorem spec_C5_witness :
    EntityStore.Canonical scenarioState.store
    ∧ SeqValid [Command.deleteEntity "Delete template" tplT1] scenarioState.store = true
    ∧ (undoN 1 (execSeq [Command.deleteEntity "Delete template" tplT1] scenarioState)).store
        = scenarioState.store
    ∧ combinedListing "w"
        ((undoN 1 (execSeq [Command.deleteEntity "Delete template" tplT1] scenarioState)).store)
        = [gtplG1, tplT1, tplT2] := by
  have hcan : EntityStore.Canonical scenarioState.store := by
    rw [EntityStore.Canonical]
    decide
  have hv : SeqValid [Command.deleteEntity "Delete template" tplT1] scenarioState.store = true := by
    decide
  have h := spec_C5 [Command.deleteEntity "Delete template" tplT1] scenarioState.store [] [] "w"
    hcan hv
  have h1 : (undoN 1 (execSeq [Command.deleteEntity "Delete template" tplT1] scenarioState)).store
      = scenarioState.store := h.1
  refine ⟨hcan, hv, h1, ?_⟩
  rw [h1]
  decide

/-- Claim C6: executing a brand-new command (remote call succeeding)
reports no error, pushes the command onto the undo stack, and empties
the redo stack; calling redo immediately afterwards fails with
EmptyHistory and leaves the state unchanged, however many undos
preceded the execution. -/
theorem spec_C6 : ∀ (c : Command) (st : MState) (b : Bool),
    (executeCmd c true st).2 = none
    ∧ (executeCmd c true st).1.history.undoStack = c :: st.history.undoStack
    ∧ (executeCmd c true st).1.history.redoStack = []
    ∧ redo b (executeCmd c true st).1 = ((executeCmd c true st).1, some MutErr.emptyHistory) :=
  fun _ _ _ => ⟨rfl, rfl, rfl, rfl⟩

/-- Claim C7: when a command's forward action fails (remote rejection),
execute discards the command leaving the whole state — store and both
stacks — unchanged and propagates MutationFailed; in particular the
addEmptyEntity verb leaves no new entity in the store, returns
MutationFailed, invokes no navigation callback, and adds nothing to the
undo stack. -/
theorem spec_C7 : ∀ (c : Command) (st : MState) (w fid : String) (now : Int),
    executeCmd c false st = (st, some MutErr.mutationFailed)
    ∧ addEmptyBoard w fid now false st = (st, some MutErr.mutationFailed, [])
    ∧ (addEmptyBoard w fid now false st).1.store = st.store
    ∧ (addEmptyBoard w fid now false st).1.history.undoStack = st.history.undoStack :=
  fun _ _ _ _ _ => ⟨rfl, rfl, rfl, rfl⟩

/-- Claim C8: a successful addEntityFromTemplate with a fresh id builds
the new entity from the source template's property bag and title, with
the caller's workspace as scope and the current timestamp, stores it
under the fresh id (distinct from every existing id), and invokes the
navigation callback exactly once with the new id; the source-is-global
flag the component passes is the template's scope id compared with the
sentinel "0". -/
theorem spec_C8 : ∀ (st : MState) (tmpl : Entity) (tid w fid : String) (now : Int),
    EntityStore.get tid st.store = some tmpl →
    EntityStore.get fid st.store = none →
    (addBoardFromTemplate tid false w fid now true st).2.1 = none
    ∧ (addBoardFromTemplate tid false w fid now true st).2.2 = [fid]
    ∧ EntityStore.get fid (addBoardFromTemplate tid false w fid now true st).1.store =
        some { id := fid, workspaceId := w, createAt := now, isTemplate := false,
               title := tmpl.title, properties := tmpl.properties }
    ∧ (∀ e ∈ st.store, e.id ≠ fid)
    ∧ handleUseTemplateIsGlobal tmpl = (tmpl.workspaceId == "0") := by
  intro st tmpl tid w fid now htid hfid
  have heq : addBoardFromTemplate tid false w fid now true st =
      (⟨EntityStore.put (cloneFromTemplate tmpl w fid now) st.store,
        ⟨Command.addEntity "add board from template" (cloneFromTemplate tmpl w fid now)
            :: st.history.undoStack, []⟩⟩,
       none, [fid]) := by
    rw [addBoardFromTemplate, htid]
    rfl
  refine ⟨?_, ?_, ?_, EntityStore.get_none hfid, rfl⟩
  · rw [heq]
  · rw [heq]
  · rw [heq]
    exact EntityStore.get_put (cloneFromTemplate tmpl w fid now) st.store

/-- Claim C8 witness: cloning T2 from the scenario store with fresh id
"n1" at time 300 in workspace "w". -/
theorem spec_C8_witness :
    EntityStore.get "t2" scenarioState.store = some tplT2
    ∧ EntityStore.get "n1" scenarioState.store = none
    ∧ (addBoardFromTemplate "t2" false "w" "n1" 300 true scenarioState).2.1 = none
    ∧ (addBoardFromTemplate "t2" false "w" "n1" 300 true scenarioState).2.2 = ["n1"]
    ∧ EntityStore.get "n1" (addBoardFromTemplate "t2" false "w" "n1" 300 true scenarioState).1.store
        = some { id := "n1", workspaceId := "w", createAt := 300, isTemplate := false,
                 title := tplT2.title, properties := tplT2.properties } := by
  have h := spec_C8 scenarioState tplT2 "t2" "w" "n1" 300 (by decide) (by decide)
  exact ⟨by decide, by decide, h.1, h.2.1, h.2.2.1⟩

/-- Claim C9: undo with an empty undo stack fails with EmptyHistory and
changes neither the store nor either stack; symmetrically for redo with
an empty redo stack. -/
theorem spec_C9 : ∀ (s : EntityStore) (u r : List Command) (b : Bool),
    undo b ⟨s, ⟨[], r⟩⟩ = (⟨s, ⟨[], r⟩⟩, some MutErr.emptyHistory)
    ∧ redo b ⟨s, ⟨u, []⟩⟩ = (⟨s, ⟨u, []⟩⟩, some MutErr.emptyHistory) :=
  fun _ _ _ _ => ⟨rfl, rfl⟩

/-- Claim C10: the component dispatches the global-template fetch
exactly when the workspace id is not the global sentinel "0" and the
loaded global-template list is empty; in the global workspace, or once
a global template is loaded, no fetch is dispatched. -/
theorem spec_C10 : ∀ (w : String) (gs : List Entity),
    (shouldFetchGlobalTemplates w gs = true ↔ (w ≠ "0" ∧ gs = []))
    ∧ shouldFetchGlobalTemplates "0" gs = false
    ∧ (gs ≠ [] → shouldFetchGlobalTemplates w gs = false) := by
  intro w gs
  refine ⟨?_, ?_, ?_⟩
  · rw [shouldFetchGlobalTemplates, Bool.and_eq_true, bne_iff_ne, beq_iff_eq,
      List.length_eq_zero]
  · rw [shouldFetchGlobalTemplates]
    simp
  · intro h
    rw [shouldFetchGlobalTemplates]
    simp [h]

/-- Claim C10 witness: the guard at concrete inputs. -/
theorem spec_C10_witness :
    shouldFetchGlobalTemplates "0" [] = false
    ∧ shouldFetchGlobalTemplates "w" [gtplG1] = false
    ∧ shouldFetchGlobalTemplates "w" [] = true := by
  refine ⟨(spec_C10 "0" []).2.1, (spec_C10 "w" [gtplG1]).2.2 (by decide), ?_⟩
  exact (spec_C10 "w" []).1.mpr ⟨by decide, rfl⟩
